import Mathlib

/-!
Verification of the medchat-pwa backend core (connection/session lifecycle,
rate limiting, broadcast fan-out, persistence) against its natural-language
specification.  The Python sources are shallowly embedded as executable Lean
definitions; machine-level concerns (JSON parsing from raw bytes, real clock,
the SQL engine) are modelled by explicit parameters, with each modelling
choice recorded in the doc comment of the corresponding definition.
-/

namespace MedChat

/-- Structured values produced by Python's `json.loads`: `null`, booleans,
numbers (modelled as integers), strings, arrays and objects (ordered
association lists, as Python dicts preserve insertion order). -/
inductive Json where
  | null
  | bool (b : Bool)
  | num (n : Int)
  | str (s : String)
  | arr (elems : List Json)
  | obj (fields : List (String × Json))

/-- First-match association lookup over a JSON object's field list; models
Python `dict.get(key)` / `dict[key]` returning `None` vs the value (Python
dicts have unique keys, so first-match is exact). -/
def lookupField : List (String × Json) → String → Option Json
  | [], _ => none
  | (k, v) :: rest, key => if k = key then some v else lookupField rest key

/-- Models Python `dict[key] = value` on an object's field list: an existing
key keeps its position and gets the new value, a fresh key is appended. -/
def setField (fields : List (String × Json)) (key : String) (v : Json) :
    List (String × Json) :=
  if (lookupField fields key).isSome then
    fields.map (fun p => if p.1 = key then (key, v) else p)
  else fields ++ [(key, v)]

/-- Field lookup on an arbitrary JSON value: `none` on non-objects. -/
def Json.getField : Json → String → Option Json
  | .obj fields, key => lookupField fields key
  | _, _ => none

/-- Extracts a string-valued field of a JSON object, `none` otherwise. -/
def Json.getStr (j : Json) (key : String) : Option String :=
  match j.getField key with
  | some (.str s) => some s
  | _ => none

namespace SecurityUtils

/-- The six ASCII whitespace characters stripped by Python's `str.strip()`
(space, tab, newline, vertical tab, form feed, carriage return); the model
restricts attention to ASCII text. -/
def pyIsStripChar (c : Char) : Bool :=
  c = ' ' || c = '\t' || c = '\n' || c = Char.ofNat 11 || c = Char.ofNat 12 || c = '\r'

/-- Python `str.strip()`: drop leading and trailing whitespace. -/
def pyStrip (l : List Char) : List Char :=
  ((l.dropWhile pyIsStripChar).reverse.dropWhile pyIsStripChar).reverse

/-- Per-character expansion performed by Python's `html.escape` (with its
default `quote=True`): `&`, `<`, `>`, `"` and the apostrophe become entities,
all other characters are kept.  `html.escape` replaces `&` first, so it is
exactly this character-wise map. -/
def htmlEscapeChar (c : Char) : List Char :=
  if c = '&' then "&amp;".data
  else if c = '<' then "&lt;".data
  else if c = '>' then "&gt;".data
  else if c = '"' then "&quot;".data
  else if c = '\'' then "&#x27;".data
  else [c]

/-- Python's `html.escape` over a character list. -/
def html_escape (l : List Char) : List Char :=
  (l.map htmlEscapeChar).flatten

/-- `SecurityUtils.sanitize_input` from `src/backend/security/utils.py`:
empty input short-circuits to `""`; otherwise the text is truncated to
`maxLength`, HTML-escaped and stripped.  The optional `bleach.clean` pass is
guarded by `BLEACH_AVAILABLE` in the source and is modelled as unavailable
(the import-failure branch); the claims settled below do not depend on it,
since `html.escape` runs after it in both branches. -/
def sanitize_input (text : List Char) (maxLength : Nat) : List Char :=
  if text = [] then []
  else pyStrip (html_escape (text.take maxLength))

/-- `SecurityUtils.validate_message_length`: `0 < len(message) <= 1000`. -/
def validate_message_length (message : List Char) : Bool :=
  decide (0 < message.length) && decide (message.length ≤ 1000)

/-- The `seconds` attribute of a Python `timedelta` of `elapsed` whole
seconds: `timedelta` normalises into days plus a seconds component in
`[0, 86400)`, so `.seconds` is `elapsed % 86400`, not the total elapsed
seconds.  This is what `check_rate_limit` in the source reads. -/
def timedeltaSeconds (elapsed : Nat) : Nat := elapsed % 86400

/-- `SecurityUtils.check_rate_limit` for one key, over the recorded
timestamp list for that key (distinct keys of `rate_limit_storage` are
independent).  Time is modelled as whole seconds (`now`, and each recorded
stamp, with stamps never in the future).  Mirrors the source: prune entries
with `(now - timestamp).seconds < time_window` kept, deny without recording
when `max_requests` remain, otherwise append `now` and allow.  Returns the
decision and the updated stored list (the source writes the pruned list back
before the limit check). -/
def check_rate_limit (stamps : List Nat) (maxRequests timeWindow now : Nat) :
    Bool × List Nat :=
  let pruned := stamps.filter (fun ts => timedeltaSeconds (now - ts) < timeWindow)
  if maxRequests ≤ pruned.length then (false, pruned)
  else (true, pruned ++ [now])

/-- `SecurityUtils.hash_password`: returns `salt + pbkdf2_hmac_sha256_hex`.
The salt produced by `secrets.token_hex(32)` (always 64 hex characters) and
the PBKDF2 digest in hex are modelled as parameters: the digest function is
an arbitrary deterministic function of password and salt. -/
def hash_password (pbkdf2Hex : List Char → List Char → List Char)
    (salt password : List Char) : List Char :=
  salt ++ pbkdf2Hex password salt

/-- `SecurityUtils.verify_password`: split the stored string into the first
64 characters (salt) and the rest (digest), recompute and compare. -/
def verify_password (pbkdf2Hex : List Char → List Char → List Char)
    (storedPassword providedPassword : List Char) : Bool :=
  decide (pbkdf2Hex providedPassword (storedPassword.take 64) = storedPassword.drop 64)

end SecurityUtils

/-- Python exceptions that escape the embedded code paths. -/
inductive PyErr where
  | typeError
  | attributeError
deriving DecidableEq

/-- A live WebSocket handle.  `addr` models CPython's `id(object)` (the
memory address, unique only among simultaneously live objects and reusable
after garbage collection); `tag` distinguishes distinct connection objects
independently of address reuse. -/
structure Handle where
  addr : Nat
  tag : Nat
deriving DecidableEq

/-- A row of the `user_sessions` table (`UserSession` in
`models/db_models.py`).  Timestamps are whole seconds. -/
structure SessionRow where
  user_id : String
  connection_id : String
  connected_at : Nat
  disconnected_at : Option Nat
  is_active : Bool
deriving DecidableEq

/-- A row of the `users` table (`User` in `models/db_models.py`), restricted
to the fields the claims touch. -/
structure UserRow where
  user_id : String
  user_name : String
  department : String
  bio : Option String
  is_active : Bool
  last_seen : Nat
deriving DecidableEq

/-- A row of the `messages` table (`Message` in `models/db_models.py`).  The
`user_id`, `text` and `message_type` columns hold whatever JSON values the
broadcast code passed to `create_message`; `created_at` is the (monotone)
insertion time. -/
structure MessageRow where
  message_id : String
  text : Json
  message_type : Json
  user_id : Json
  created_at : Nat

/-- `UserService.create_or_update_user`: update the mutable fields and
`last_seen` of the existing row, or append a fresh active row. -/
def UserService.create_or_update_user (users : List UserRow)
    (userId userName department : String) (bio : Option String) (now : Nat) :
    List UserRow :=
  if (users.filter (fun u => u.user_id = userId)).isEmpty then
    users ++ [⟨userId, userName, department, bio, true, now⟩]
  else
    users.map (fun u =>
      if u.user_id = userId then
        { u with user_name := userName, department := department, bio := bio,
                 last_seen := now }
      else u)

/-- `MessageService.create_message`: append an immutable row; `message_id`
(a fresh UUID in the source) and `created_at` are passed in by the caller
model. -/
def MessageService.create_message (msgs : List MessageRow)
    (userId text messageType : Json) (messageId : String) (now : Nat) :
    List MessageRow :=
  msgs ++ [⟨messageId, text, messageType, userId, now⟩]

/-- `MessageService.get_recent_messages`: the `limit` most recent rows,
newest first.  Rows are appended with strictly increasing `created_at`, so
ordering by `created_at` descending is the reverse of insertion order. -/
def MessageService.get_recent_messages (msgs : List MessageRow) (limit : Nat) :
    List MessageRow :=
  msgs.reverse.take limit

/-- `SessionService.create_session`: append an active row with no
disconnect timestamp. -/
def SessionService.create_session (rows : List SessionRow)
    (userId connectionId : String) (now : Nat) : List SessionRow :=
  rows ++ [⟨userId, connectionId, now, none, true⟩]

/-- `SessionService.end_session` (the two-parameter function the source
defines): `UPDATE user_sessions SET disconnected_at = now, is_active = false
WHERE connection_id = :connectionId`.  Matching zero rows updates nothing
and raises nothing. -/
def SessionService.end_session (rows : List SessionRow)
    (connectionId : String) (now : Nat) : List SessionRow :=
  rows.map (fun r =>
    if r.connection_id = connectionId then
      { r with disconnected_at := some now, is_active := false }
    else r)

/-- `SessionService.get_active_sessions`: the rows whose `is_active` flag is
set. -/
def SessionService.get_active_sessions (rows : List SessionRow) :
    List SessionRow :=
  rows.filter (fun r => r.is_active)

/-- Python `dict[key] = value` on the registry: last-connect-wins overwrite,
fresh keys appended in insertion order. -/
def dictSet (d : List (String × Handle)) (key : String) (v : Handle) :
    List (String × Handle) :=
  if (d.filter (fun p => p.1 = key)).isEmpty then d ++ [(key, v)]
  else d.map (fun p => if p.1 = key then (key, v) else p)

/-- Python `del dict[key]`. -/
def dictRemove (d : List (String × Handle)) (key : String) :
    List (String × Handle) :=
  d.filter (fun p => ¬ p.1 = key)

/-- Python `dict.get(key)` on the registry. -/
def dictLookup : List (String × Handle) → String → Option Handle
  | [], _ => none
  | (k, v) :: rest, key => if k = key then some v else dictLookup rest key

/-- The process state owned by the database-backed `ConnectionManager`
(`services/websocket_manager.py`): the in-memory registry plus the three
persisted tables it writes through the services. -/
structure ManagerState where
  active_connections : List (String × Handle)
  users : List UserRow
  sessions : List SessionRow
  messages : List MessageRow

namespace ConnectionManager

/-- The connection token the source derives for a handle:
`f"ws_\x7bid(websocket)\x7d"`, i.e. the literal `ws_` followed by the
handle's transient memory address. -/
def mkConnectionId (ws : Handle) : String :=
  "ws_" ++ Nat.repr ws.addr

/-- `ConnectionManager.connect`: accept the transport (no state), register
the handle under `user_id` (overwriting any previous entry), upsert the user
(`user_name or user_id`, `department or "Unknown"` — absent values modelled
as `Option`), and open a session row keyed by `mkConnectionId`. -/
def connect (st : ManagerState) (ws : Handle) (userId : String)
    (userName department : Option String) (now : Nat) : ManagerState :=
  { st with
    active_connections := dictSet st.active_connections userId ws,
    users := UserService.create_or_update_user st.users userId
      (userName.getD userId) (department.getD "Unknown") none now,
    sessions := SessionService.create_session st.sessions userId
      (mkConnectionId ws) now }

/-- `ConnectionManager.disconnect`: for a registered user, recompute the
connection token from the stored handle, delete the registry entry, then
call `SessionService.end_session`.  The source invokes `end_session` with
three positional arguments — `(session, user_id, connection_id)` — though
its definition accepts two, `(db, connection_id)`; Python therefore raises
`TypeError` at that call, after the registry deletion and before any session
row is updated.  For an unregistered user the method returns without doing
anything.  Returns the resulting state and the escaped exception, if any. -/
def disconnect (st : ManagerState) (userId : String) :
    ManagerState × Option PyErr :=
  match dictLookup st.active_connections userId with
  | some _ =>
      ({ st with active_connections := dictRemove st.active_connections userId },
       some PyErr.typeError)
  | none => (st, none)

/-- The fan-out loop shared verbatim by both `ConnectionManager.broadcast`
implementations (`services/websocket_manager.py` and `main.py`): iterate the
registry entries in order; for each entry whose key differs from
`exclude_user` attempt `send_text`, swallowing any per-recipient failure.
Delivery success is modelled by the predicate `sendOk`; the loop returns the
entries that received a delivery attempt and those whose delivery
succeeded. -/
def broadcastLoop (sendOk : Handle → Bool) (excludeUser : Option String) :
    List (String × Handle) → List (String × Handle) × List (String × Handle)
  | [] => ([], [])
  | (u, h) :: rest =>
      let r := broadcastLoop sendOk excludeUser rest
      if some u ≠ excludeUser then
        ((u, h) :: r.1, if sendOk h then (u, h) :: r.2 else r.2)
      else r

/-- Outcome of the persistence step at the head of the database-backed
`broadcast`. -/
inductive PersistOutcome where
  | persisted (userId text messageType : Json)
  | nothing
  | raisedAttr

/-- The persistence step of `ConnectionManager.broadcast`
(`services/websocket_manager.py`): when `save_to_db` is set, parse the
payload (the argument is the already-parsed result, `none` for a
`json.JSONDecodeError`, which the `except` clause swallows); on a JSON
object whose `type` field equals `"message"` and which contains a `text`
key, persist `(user_id or "system", text, message_type or "text")`; on an
object without that shape, persist nothing; on a parsed non-object value the
attribute access `message_data.get` raises `AttributeError`, which the
`except (json.JSONDecodeError, KeyError)` clause does not catch. -/
def persistCheck (saveToDb : Bool) (payload : Option Json) : PersistOutcome :=
  if saveToDb then
    match payload with
    | none => .nothing
    | some (.obj fields) =>
        match lookupField fields "type" with
        | some (.str t) =>
            if t = "message" then
              match lookupField fields "text" with
              | some txt =>
                  .persisted ((lookupField fields "user_id").getD (.str "system"))
                    txt ((lookupField fields "message_type").getD (.str "text"))
              | none => .nothing
            else .nothing
        | _ => .nothing
    | some _ => .raisedAttr
  else .nothing

/-- `ConnectionManager.broadcast` of `services/websocket_manager.py` as a
state transformer: run the persistence step (appending a message row on
success, with `messageId`/`now` modelling the fresh UUID and clock), then —
unless the persistence step raised — run the delivery loop over the current
registry.  Returns the new state, the escaped exception if any, the entries
attempted and the entries delivered. -/
def broadcast (st : ManagerState) (payload : Option Json)
    (excludeUser : Option String) (saveToDb : Bool) (sendOk : Handle → Bool)
    (messageId : String) (now : Nat) :
    ManagerState × Option PyErr × List (String × Handle) × List (String × Handle) :=
  match persistCheck saveToDb payload with
  | .raisedAttr => (st, some PyErr.attributeError, [], [])
  | .nothing =>
      let r := broadcastLoop sendOk excludeUser st.active_connections
      (st, none, r.1, r.2)
  | .persisted userId text messageType =>
      let st2 := { st with
        messages := MessageService.create_message st.messages userId text
          messageType messageId now }
      let r := broadcastLoop sendOk excludeUser st2.active_connections
      (st2, none, r.1, r.2)

end ConnectionManager

/-- One call to the database-backed `ConnectionManager.broadcast`, with its
arguments and the environment (delivery outcomes, fresh UUID, clock) for
that call. -/
structure BroadcastEvent where
  payload : Option Json
  excludeUser : Option String
  saveToDb : Bool
  sendOk : Handle → Bool
  messageId : String
  now : Nat

/-- Whether an event's payload is a system notice: a JSON object whose
`type` field is the string `"user_joined"` or `"user_left"` (the join/leave
notices `main.py` constructs). -/
def BroadcastEvent.isSystemNotice (e : BroadcastEvent) : Bool :=
  match e.payload with
  | some (.obj fields) =>
      match lookupField fields "type" with
      | some (.str t) => t = "user_joined" || t = "user_left"
      | _ => false
  | _ => false

/-- Run a sequence of broadcast calls from a starting state, threading the
state (exceptions escape to the per-connection handler in the source and do
not alter the tables, so the run continues from the returned state). -/
def runBroadcasts (st : ManagerState) : List BroadcastEvent → ManagerState
  | [] => st
  | e :: rest =>
      runBroadcasts
        (ConnectionManager.broadcast st e.payload e.excludeUser e.saveToDb
          e.sendOk e.messageId e.now).1 rest

/-- Result of the per-message step of `websocket_endpoint` in `main.py`:
a sender-only error notice, an uncaught exception, or a broadcast of the
final payload excluding the given user. -/
inductive MsgStep where
  | errorNotice (msg : String)
  | raised (e : PyErr)
  | broadcastCall (payload : Json) (excludeUser : String)

/-- An early exit of a validation/sanitization stage of the per-message
step: a sender-only error notice (`continue` in the source loop) or an
uncaught exception. -/
inductive StepErr where
  | errorNotice (msg : String)
  | raised (e : PyErr)

/-- Embeds a stage exit into the step result. -/
def StepErr.toMsgStep : StepErr → MsgStep
  | .errorNotice m => .errorNotice m
  | .raised e => .raised e

/-- Python `len()` on a parsed JSON value: defined for strings, arrays and
objects, `TypeError` (modelled as `none`) otherwise. -/
def pyLen : Json → Option Nat
  | .str s => some s.length
  | .arr l => some l.length
  | .obj l => some l.length
  | _ => none

/-- `SecurityUtils.sanitize_input` applied to an arbitrary parsed JSON value,
following Python's dynamic typing: falsy values (`None`, `False`, `0`, empty
containers) short-circuit at `if not text` and return `""`; strings are
sanitized; every other truthy non-string value raises `TypeError` (modelled
as `none`) at the slice or at `html.escape`. -/
def pySanitizeValue (v : Json) (maxLength : Nat) : Option String :=
  match v with
  | .str s => some (String.mk (SecurityUtils.sanitize_input s.data maxLength))
  | .null => some ""
  | .bool false => some ""
  | .num 0 => some ""
  | .arr [] => some ""
  | .obj [] => some ""
  | _ => none

/-- The `if "text" in message_data` block of `websocket_endpoint`: when a
`text` field is present, check `validate_message_length` (replying with the
`"Message too long or empty"` error notice on failure) and replace the field
by its sanitized value (`max_length=1000`). -/
def processText (fields : List (String × Json)) :
    Except StepErr (List (String × Json)) :=
  match lookupField fields "text" with
  | none => .ok fields
  | some v =>
      match pyLen v with
      | none => .error (.raised .typeError)
      | some n =>
          if 0 < n ∧ n ≤ 1000 then
            match pySanitizeValue v 1000 with
            | none => .error (.raised .typeError)
            | some s => .ok (setField fields "text" (.str s))
          else .error (.errorNotice "Message too long or empty")

/-- One iteration of the `for field in ["user_name", "department", "bio"]`
sanitization loop of `websocket_endpoint`: a present field is replaced by
its sanitized value (`max_length=200`). -/
def sanitizeProfileField (fields : List (String × Json)) (name : String) :
    Except StepErr (List (String × Json)) :=
  match lookupField fields name with
  | none => .ok fields
  | some v =>
      match pySanitizeValue v 200 with
      | none => .error (.raised .typeError)
      | some s => .ok (setField fields name (.str s))

/-- The per-message step of `websocket_endpoint` in `main.py` for the
connection of `userId`, from `json.loads` onward (the per-message rate-limit
gate precedes it and is settled separately): a parse failure (`parsed =
none`) yields the `"Invalid message format"` error notice; a parsed
non-object raises before the `update` call; on an object, validate and
sanitize `text`, sanitize `user_name`/`department`/`bio`, then
`message_data.update` the server-assigned `timestamp` and `message_id` and
broadcast the result excluding the sender.  The source's update sets only
those two keys — it never writes `user_id`. -/
def processMessage (userId : String) (parsed : Option Json)
    (timestamp messageId : String) : MsgStep :=
  match parsed with
  | none => .errorNotice "Invalid message format"
  | some (.obj fields) =>
      match processText fields with
      | .error e => e.toMsgStep
      | .ok f1 =>
          match sanitizeProfileField f1 "user_name" with
          | .error e => e.toMsgStep
          | .ok f2 =>
              match sanitizeProfileField f2 "department" with
              | .error e => e.toMsgStep
              | .ok f3 =>
                  match sanitizeProfileField f3 "bio" with
                  | .error e => e.toMsgStep
                  | .ok f4 =>
                      .broadcastCall
                        (.obj (setField (setField f4 "timestamp" (.str timestamp))
                          "message_id" (.str messageId)))
                        userId
  | some _ => .raised .typeError

/-- Field projection of the payload of a `broadcastCall` result. -/
def MsgStep.payloadStr (r : MsgStep) (key : String) : Option String :=
  match r with
  | .broadcastCall payload _ => payload.getStr key
  | _ => none

/-- The five characters Python's `html.escape` rewrites. -/
def isHtmlSpecial (c : Char) : Bool :=
  c = '&' || c = '<' || c = '>' || c = '"' || c = '\''

section Lemmas

/-- Replacing the value at `key` leaves lookups of other keys unchanged. -/
theorem lookupField_map_set_ne (fields : List (String × Json))
    (key k : String) (v : Json) (h : k ≠ key) :
    lookupField (fields.map fun p => if p.1 = key then (key, v) else p) k =
      lookupField fields k := by
  induction fields with
  | nil => rfl
  | cons p rest ih =>
    obtain ⟨k₀, w⟩ := p
    simp only [List.map_cons]
    by_cases hk : k₀ = key
    · subst hk
      have hc : ((k₀, w).1 = k₀) := rfl
      rw [if_pos hc]
      simp only [lookupField]
      rw [if_neg (Ne.symm h), if_neg (Ne.symm h)]
      exact ih
    · have hc : ¬ ((k₀, w).1 = key) := hk
      rw [if_neg hc]
      simp only [lookupField]
      by_cases hk2 : k₀ = k
      · rw [if_pos hk2, if_pos hk2]
      · rw [if_neg hk2, if_neg hk2]
        exact ih

/-- Replacing the value at a present `key` makes lookups of `key` see the
new value. -/
theorem lookupField_map_set_self (fields : List (String × Json))
    (key : String) (v : Json) (h : (lookupField fields key).isSome) :
    lookupField (fields.map fun p => if p.1 = key then (key, v) else p) key =
      some v := by
  induction fields with
  | nil => simp [lookupField] at h
  | cons p rest ih =>
    obtain ⟨k₀, w⟩ := p
    simp only [List.map_cons]
    by_cases hk : k₀ = key
    · subst hk
      have hc : ((k₀, w).1 = k₀) := rfl
      rw [if_pos hc]
      simp [lookupField]
    · have hc : ¬ ((k₀, w).1 = key) := hk
      rw [if_neg hc]
      simp only [lookupField, if_neg hk] at h
      simp only [lookupField]
      rw [if_neg hk]
      exact ih h

/-- `setField` writes the given value at the given key. -/
theorem lookupField_setField_self (fields : List (String × Json))
    (key : String) (v : Json) :
    lookupField (setField fields key v) key = some v := by
  unfold setField
  by_cases h : (lookupField fields key).isSome
  · rw [if_pos h]
    exact lookupField_map_set_self fields key v h
  · rw [if_neg h]
    induction fields with
    | nil => simp [lookupField]
    | cons p rest ih =>
      obtain ⟨k₀, w⟩ := p
      by_cases hk : k₀ = key
      · subst hk
        simp [lookupField] at h
      · simp only [lookupField, if_neg hk] at h
        simp only [List.cons_append, lookupField, if_neg hk]
        exact ih h

/-- `setField` leaves lookups of other keys unchanged. -/
theorem lookupField_setField_ne (fields : List (String × Json))
    (key k : String) (v : Json) (h : k ≠ key) :
    lookupField (setField fields key v) k = lookupField fields k := by
  unfold setField
  by_cases hs : (lookupField fields key).isSome
  · rw [if_pos hs]
    exact lookupField_map_set_ne fields key k v h
  · rw [if_neg hs]
    induction fields with
    | nil => simp [lookupField, Ne.symm h]
    | cons p rest ih =>
      obtain ⟨k₀, w⟩ := p
      by_cases hk : k₀ = key
      · subst hk
        simp [lookupField] at hs
      · simp only [lookupField, if_neg hk] at hs
        simp only [List.cons_append, lookupField]
        by_cases hk2 : k₀ = k
        · simp [hk2]
        · simp [hk2, ih hs]

/-- The entries attempted by the fan-out loop are exactly the registry
entries whose key differs from the excluded user, independently of which
deliveries fail. -/
theorem broadcastLoop_fst (sendOk : Handle → Bool) (ex : Option String)
    (l : List (String × Handle)) :
    (ConnectionManager.broadcastLoop sendOk ex l).1 =
      l.filter fun p => decide (some p.1 ≠ ex) := by
  induction l with
  | nil => rfl
  | cons p rest ih =>
    obtain ⟨u, h⟩ := p
    by_cases hc : some u ≠ ex
    · simp [ConnectionManager.broadcastLoop, if_pos hc, List.filter_cons, hc, ih]
    · simp [ConnectionManager.broadcastLoop, if_neg hc, List.filter_cons, hc, ih]

/-- The entries delivered by the fan-out loop are the attempted entries
whose delivery succeeded. -/
theorem broadcastLoop_snd (sendOk : Handle → Bool) (ex : Option String)
    (l : List (String × Handle)) :
    (ConnectionManager.broadcastLoop sendOk ex l).2 =
      (ConnectionManager.broadcastLoop sendOk ex l).1.filter
        fun p => sendOk p.2 := by
  induction l with
  | nil => rfl
  | cons p rest ih =>
    obtain ⟨u, h⟩ := p
    by_cases hc : some u ≠ ex
    · by_cases hs : sendOk h
      · simp [ConnectionManager.broadcastLoop, if_pos hc, List.filter_cons, hs, ih]
      · simp [ConnectionManager.broadcastLoop, if_pos hc, List.filter_cons, hs, ih]
    · simp [ConnectionManager.broadcastLoop, if_neg hc, ih]

/-- Removing the unique entry of a present key from a duplicate-free
registry shortens it by exactly one. -/
theorem filter_ne_length (conns : List (String × Handle)) (ex : String)
    (hnodup : (conns.map Prod.fst).Nodup) (hmem : ex ∈ conns.map Prod.fst) :
    (conns.filter fun p => decide (p.1 ≠ ex)).length = conns.length - 1 := by
  induction conns with
  | nil => simp at hmem
  | cons p rest ih =>
    obtain ⟨u, h⟩ := p
    simp only [List.map_cons, List.nodup_cons] at hnodup
    obtain ⟨hu, hrest⟩ := hnodup
    by_cases hue : u = ex
    · subst hue
      have hall : rest.filter (fun p => decide (p.1 ≠ u)) = rest := by
        apply List.filter_eq_self.mpr
        intro x hx
        have hx1 : x.1 ≠ u := by
          intro hcontra
          exact hu (hcontra ▸ List.mem_map_of_mem Prod.fst hx)
        simpa using hx1
      simp only [List.filter_cons]
      rw [show (decide ((u, h).1 ≠ u)) = false from by simp]
      simp only [Bool.false_eq_true, if_false]
      rw [hall]
      simp
    · have hmem2 : ex ∈ rest.map Prod.fst := by
        rcases List.mem_cons.mp hmem with h1 | h1
        · exact absurd h1.symm hue
        · exact h1
      have hlen : 1 ≤ rest.length := by
        have hpos := List.length_pos_of_mem hmem2
        rw [List.length_map] at hpos
        omega
      simp only [List.filter_cons, decide_eq_true_eq]
      rw [if_pos (by simpa using hue)]
      simp only [List.length_cons, ih hrest hmem2]
      omega

end Lemmas

section Claims

open SecurityUtils ConnectionManager

/-- C3 — The rate limiter's pruning predicate reads the `timedelta.seconds`
component instead of the total elapsed seconds, so a stamp whose age exceeds
the window but whose age modulo one day falls inside it is retained.  On the
key's first use at time 0 `admit` allows and records the stamp; a subsequent
call 86410 seconds (one day plus ten seconds) later — far more than the
60-second window after which the claim promises an allow — is denied with
`maxRequests = 1`, and the day-old stamp is still stored. -/
theorem check_rate_limit_denies_after_day_elapsed :
    check_rate_limit [] 1 60 0 = (true, [0]) ∧
    check_rate_limit [0] 1 60 86410 = (false, [0]) := by
  constructor <;> rfl

/-- C9 counterexample — The connection token is `"ws_"` followed by the
handle's memory address, so two distinct connection handles whose addresses
coincide (CPython reuses addresses once an object is collected) receive
identical tokens: the token is derived from transient memory identity and is
not unique per connection. -/
theorem connection_token_collides_on_address_reuse :
    mkConnectionId ⟨42, 0⟩ = mkConnectionId ⟨42, 1⟩ ∧
    (⟨42, 0⟩ : Handle) ≠ (⟨42, 1⟩ : Handle) := by
  constructor
  · rfl
  · decide

/-- C9 — (amended) Every connect appends a session row whose
`connection_token` is the literal `"ws_"` concatenated with the decimal
rendering of the handle's transient memory address: the token is a pure
function of `id(websocket)`. -/
theorem connect_token_derived_from_handle_identity (st : ManagerState)
    (ws : Handle) (userId : String) (userName department : Option String)
    (now : Nat) :
    (connect st ws userId userName department now).sessions =
      st.sessions ++ [⟨userId, "ws_" ++ Nat.repr ws.addr, now, none, true⟩] :=
  rfl

/-- C10 — Password verification round-trips hashing: for any PBKDF2 digest
function, any 64-character salt (the length `secrets.token_hex(32)` always
produces) and any password, `verify_password` accepts the stored string
`hash_password` built, because it re-splits the stored string at index 64
and recomputes the same digest. -/
theorem verify_password_roundtrip
    (pbkdf2Hex : List Char → List Char → List Char) (salt password : List Char)
    (hsalt : salt.length = 64) :
    verify_password pbkdf2Hex (hash_password pbkdf2Hex salt password)
      password = true := by
  have ht : (salt ++ pbkdf2Hex password salt).take 64 = salt := by
    rw [← hsalt, List.take_left]
  have hd : (salt ++ pbkdf2Hex password salt).drop 64 = pbkdf2Hex password salt := by
    rw [← hsalt, List.drop_left]
  simp [verify_password, hash_password, ht, hd]

/-- C10 witness — concrete instance: a constant digest function, a
64-character salt, password `"p"`. -/
theorem verify_password_roundtrip_witness :
    (List.replicate 64 's').length = 64 ∧
    verify_password (fun _ _ => ['h'])
      (hash_password (fun _ _ => ['h']) (List.replicate 64 's') ['p'])
      ['p'] = true :=
  ⟨by decide,
   verify_password_roundtrip (fun _ _ => ['h']) (List.replicate 64 's') ['p']
     (by decide)⟩

/-- C2 — After `"doc1"` connects (handle at address 7, time 100) and then
disconnects, the disconnect path raises `TypeError` — the source passes
three positional arguments `(session, user_id, connection_id)` to
`SessionService.end_session`, which accepts two — so the session row is
never closed and `get_active_sessions` still lists it.  The claim (and the
repository's own tests, which call `end_session(db, connection_id)` and
expect `test_disconnect_ends_session` to leave no active session) describes
the intended behaviour; the third conjunct checks the claim's no-op clause
for the two-parameter `end_session` the source defines: with no matching
open session it changes nothing and raises nothing. -/
theorem disconnect_raises_type_error_and_session_stays_active :
    (ConnectionManager.disconnect
        (connect ⟨[], [], [], []⟩ ⟨7, 0⟩ "doc1" none none 100) "doc1").2 =
      some PyErr.typeError ∧
    SessionService.get_active_sessions
        (ConnectionManager.disconnect
          (connect ⟨[], [], [], []⟩ ⟨7, 0⟩ "doc1" none none 100) "doc1").1.sessions =
      [⟨"doc1", "ws_7", 100, none, true⟩] ∧
    SessionService.end_session [] "ws_7" 200 = [] := by
  refine ⟨rfl, ?_, rfl⟩
  rfl

/-- C4 counterexample — sanitization is not idempotent: `html.escape`
rewrites the ampersand that a first escape introduced, so
`sanitize(sanitize("&")) = "&amp;amp;"` differs from
`sanitize("&") = "&amp;"`. -/
theorem sanitize_input_not_idempotent_on_ampersand :
    sanitize_input (sanitize_input ['&'] 1000) 1000 ≠
      sanitize_input ['&'] 1000 := by
  decide

/-- C1 counterexample — On the connection of user `"doc1"`, a valid chat
payload that carries a client-chosen `user_id` of `"mallory"` is broadcast
with that spoofed `user_id` intact: the `update` call in
`websocket_endpoint` stamps only `timestamp` and `message_id`, so the
broadcast payload's `user_id` is not the authoritative `"doc1"`. -/
theorem processMessage_keeps_spoofed_user_id :
    MsgStep.payloadStr
        (processMessage "doc1"
          (some (.obj [("user_id", .str "mallory"), ("text", .str "hi")]))
          "T" "M") "user_id" = some "mallory" ∧
    MsgStep.payloadStr
        (processMessage "doc1"
          (some (.obj [("user_id", .str "mallory"), ("text", .str "hi")]))
          "T" "M") "user_id" ≠ some "doc1" ∧
    MsgStep.payloadStr
        (processMessage "doc1"
          (some (.obj [("user_id", .str "mallory"), ("text", .str "hi")]))
          "T" "M") "timestamp" = some "T" ∧
    MsgStep.payloadStr
        (processMessage "doc1"
          (some (.obj [("user_id", .str "mallory"), ("text", .str "hi")]))
          "T" "M") "message_id" = some "M" := by
  refine ⟨rfl, ?_, rfl, rfl⟩
  decide

/-- C6 — For a duplicate-free registry (Python dict keys are unique) that
contains the excluded user id, the fan-out loop attempts delivery to exactly
the entries whose user id differs from the excluded id — `k - 1` of them —
and to each at most once (the attempted keys are duplicate-free), whatever
the delivery outcomes are. -/
theorem broadcast_excludes_sender_exactly (conns : List (String × Handle))
    (ex : String) (sendOk : Handle → Bool)
    (hnodup : (conns.map Prod.fst).Nodup) (hmem : ex ∈ conns.map Prod.fst) :
    (broadcastLoop sendOk (some ex) conns).1 =
      conns.filter (fun p => decide (p.1 ≠ ex)) ∧
    (broadcastLoop sendOk (some ex) conns).1.length = conns.length - 1 ∧
    ((broadcastLoop sendOk (some ex) conns).1.map Prod.fst).Nodup := by
  have hcong : conns.filter (fun p => decide (some p.1 ≠ some ex)) =
      conns.filter (fun p => decide (p.1 ≠ ex)) := by
    apply List.filter_congr
    intro x hx
    simp
  have h1 : (broadcastLoop sendOk (some ex) conns).1 =
      conns.filter (fun p => decide (p.1 ≠ ex)) :=
    (broadcastLoop_fst sendOk (some ex) conns).trans hcong
  refine ⟨h1, ?_, ?_⟩
  · rw [h1]
    exact filter_ne_length conns ex hnodup hmem
  · rw [h1]
    exact ((List.filter_sublist conns).map Prod.fst).nodup hnodup

/-- C6 witness — a three-entry registry with `"b"` excluded: both
hypotheses hold and the loop attempts exactly the two other entries. -/
theorem broadcast_excludes_sender_exactly_witness :
    (([("a", (⟨1, 0⟩ : Handle)), ("b", ⟨2, 0⟩), ("c", ⟨3, 0⟩)].map Prod.fst).Nodup ∧
      "b" ∈ [("a", (⟨1, 0⟩ : Handle)), ("b", ⟨2, 0⟩), ("c", ⟨3, 0⟩)].map Prod.fst) ∧
    ((broadcastLoop (fun _ => true) (some "b")
        [("a", (⟨1, 0⟩ : Handle)), ("b", ⟨2, 0⟩), ("c", ⟨3, 0⟩)]).1 =
      [("a", (⟨1, 0⟩ : Handle)), ("b", ⟨2, 0⟩), ("c", ⟨3, 0⟩)].filter
        (fun p => decide (p.1 ≠ "b")) ∧
    (broadcastLoop (fun _ => true) (some "b")
        [("a", (⟨1, 0⟩ : Handle)), ("b", ⟨2, 0⟩), ("c", ⟨3, 0⟩)]).1.length =
      [("a", (⟨1, 0⟩ : Handle)), ("b", ⟨2, 0⟩), ("c", ⟨3, 0⟩)].length - 1 ∧
    ((broadcastLoop (fun _ => true) (some "b")
        [("a", (⟨1, 0⟩ : Handle)), ("b", ⟨2, 0⟩), ("c", ⟨3, 0⟩)]).1.map
        Prod.fst).Nodup) :=
  ⟨⟨by decide, by decide⟩,
   broadcast_excludes_sender_exactly
     [("a", ⟨1, 0⟩), ("b", ⟨2, 0⟩), ("c", ⟨3, 0⟩)] "b" (fun _ => true)
     (by decide) (by decide)⟩

/-- C7 — Delivery failures are absorbed: whatever subset of handles fails
(`sendOk` arbitrary), the loop still attempts every non-excluded entry, the
delivered entries are exactly the attempted ones whose send succeeded (the
loop is total — no exception propagates), and the full broadcast leaves the
registry mapping unchanged in every branch. -/
theorem broadcast_absorbs_delivery_failures (st : ManagerState)
    (payload : Option Json) (excludeUser : Option String) (saveToDb : Bool)
    (sendOk : Handle → Bool) (messageId : String) (now : Nat) :
    (broadcastLoop sendOk excludeUser st.active_connections).1 =
      st.active_connections.filter (fun p => decide (some p.1 ≠ excludeUser)) ∧
    (broadcastLoop sendOk excludeUser st.active_connections).2 =
      (broadcastLoop sendOk excludeUser st.active_connections).1.filter
        (fun p => sendOk p.2) ∧
    (ConnectionManager.broadcast st payload excludeUser saveToDb sendOk
        messageId now).1.active_connections = st.active_connections := by
  refine ⟨broadcastLoop_fst sendOk excludeUser st.active_connections,
    broadcastLoop_snd sendOk excludeUser st.active_connections, ?_⟩
  unfold ConnectionManager.broadcast
  split <;> rfl

end Claims

/-- Specification function for the amended C5 claim, written from the
amended words rather than from the source: with persistence enabled,
`createMessage` runs if and only if the payload parses as a JSON object
that declares `type = "message"` and contains a `text` key (the text may be
empty), with the declared author (default `"system"`), the text and the
declared kind (default `"text"`); a parse failure or an object without that
shape persists nothing, raises nothing and still delivers; a payload that
parses to a non-object value raises an uncaught error and delivers to
nobody. -/
def broadcastAmendedSpec (st : ManagerState) (payload : Option Json)
    (excludeUser : Option String) (sendOk : Handle → Bool)
    (messageId : String) (now : Nat) :
    ManagerState × Option PyErr × List (String × Handle) × List (String × Handle) :=
  match payload with
  | none =>
      let d := ConnectionManager.broadcastLoop sendOk excludeUser
        st.active_connections
      (st, none, d.1, d.2)
  | some (.obj fields) =>
      match lookupField fields "type", lookupField fields "text" with
      | some (.str t), some txt =>
          if t = "message" then
            let author := (lookupField fields "user_id").getD (.str "system")
            let kind := (lookupField fields "message_type").getD (.str "text")
            let st2 := { st with
              messages := MessageService.create_message st.messages author
                txt kind messageId now }
            let d := ConnectionManager.broadcastLoop sendOk excludeUser
              st2.active_connections
            (st2, none, d.1, d.2)
          else
            let d := ConnectionManager.broadcastLoop sendOk excludeUser
              st.active_connections
            (st, none, d.1, d.2)
      | _, _ =>
          let d := ConnectionManager.broadcastLoop sendOk excludeUser
            st.active_connections
          (st, none, d.1, d.2)
  | some _ => (st, some PyErr.attributeError, [], [])

section MoreClaims

open SecurityUtils ConnectionManager

/-- C5 counterexample — Two explicit inputs falsify the claim as stated.
With one registered recipient: (a) the payload
`{"type": "message", "text": ""}` carries the chat-message kind but empty
text, yet `create_message` is invoked and a row with empty text is
persisted — the claim requires non-empty text for persistence; (b) the
payload parsing to the JSON string `"hello"` (a parse success without the
expected shape) raises an uncaught `AttributeError` at `message_data.get`
and delivery does not proceed — the claim requires no error and continued
delivery. -/
theorem broadcast_persists_empty_text_and_raises_on_nonobject :
    ((ConnectionManager.broadcast ⟨[("doc2", ⟨5, 0⟩)], [], [], []⟩
        (some (.obj [("type", .str "message"), ("text", .str "")]))
        (some "doc1") true (fun _ => true) "M1" 10).1.messages.map
          (fun m => m.text)) = [Json.str ""] ∧
    (ConnectionManager.broadcast ⟨[("doc2", ⟨5, 0⟩)], [], [], []⟩
        (some (.str "hello")) none true (fun _ => true) "M2" 11).2.1 =
      some PyErr.attributeError ∧
    (ConnectionManager.broadcast ⟨[("doc2", ⟨5, 0⟩)], [], [], []⟩
        (some (.str "hello")) none true (fun _ => true) "M2" 11).2.2.1 = [] :=
  ⟨rfl, rfl, rfl⟩

/-- C5 — (amended) The database-backed `broadcast` with persistence enabled
coincides, on every state and every payload, with the specification
function for the amended claim: persistence happens exactly for object
payloads declaring `type = "message"` with a `text` key present (empty text
included); shapeless objects and parse failures persist nothing and still
deliver; non-object payloads raise and skip delivery. -/
theorem broadcast_matches_amended_persist_spec (st : ManagerState)
    (payload : Option Json) (excludeUser : Option String)
    (sendOk : Handle → Bool) (messageId : String) (now : Nat) :
    ConnectionManager.broadcast st payload excludeUser true sendOk messageId
        now =
      broadcastAmendedSpec st payload excludeUser sendOk messageId now := by
  cases payload with
  | none => rfl
  | some j =>
    cases j with
    | null => rfl
    | bool b => rfl
    | num n => rfl
    | str s => rfl
    | arr elems => rfl
    | obj fields =>
        unfold ConnectionManager.broadcast broadcastAmendedSpec persistCheck
        cases htype : lookupField fields "type" with
        | none => simp [htype]
        | some tv =>
          cases tv with
          | null => simp [htype]
          | bool b => simp [htype]
          | num n => simp [htype]
          | arr elems => simp [htype]
          | obj f2 => simp [htype]
          | str t =>
              cases htext : lookupField fields "text" with
              | none => by_cases ht : t = "message" <;> simp [htype, htext, ht]
              | some txt => by_cases ht : t = "message" <;> simp [htype, htext, ht]

/-- A broadcast whose payload is a system notice (`type` equal to
`"user_joined"` or `"user_left"`) leaves the manager state unchanged: the
persistence guard requires `type = "message"`. -/
theorem broadcast_state_id_of_notice (st : ManagerState) (e : BroadcastEvent)
    (h : e.isSystemNotice = true) :
    (ConnectionManager.broadcast st e.payload e.excludeUser e.saveToDb
      e.sendOk e.messageId e.now).1 = st := by
  obtain ⟨pl, ex, sv, so, mid, n⟩ := e
  simp only [BroadcastEvent.isSystemNotice] at h
  cases pl with
  | none => simp at h
  | some j =>
    cases j with
    | null => simp at h
    | bool b => simp at h
    | num n2 => simp at h
    | str s => simp at h
    | arr elems => simp at h
    | obj fields =>
        simp only at h
        cases htype : lookupField fields "type" with
        | none => rw [htype] at h; simp at h
        | some tv =>
          cases tv with
          | null => rw [htype] at h; simp at h
          | bool b => rw [htype] at h; simp at h
          | num n2 => rw [htype] at h; simp at h
          | arr elems => rw [htype] at h; simp at h
          | obj f2 => rw [htype] at h; simp at h
          | str t =>
              rw [htype] at h
              simp only [Bool.or_eq_true, decide_eq_true_eq] at h
              have ht : ¬ t = "message" := by
                rcases h with h | h <;> subst h <;> decide
              unfold ConnectionManager.broadcast persistCheck
              cases sv <;> simp [htype, ht]

/-- C8 — System notices are never persisted: deleting every system-notice
broadcast from a run leaves the final manager state — in particular the
`messages` table — unchanged, and consequently `get_recent_messages`
returns the same rows with or without the notices; only the chat-message
payloads contribute rows. -/
theorem system_notices_never_persisted (events : List BroadcastEvent)
    (st : ManagerState) (limit : Nat) :
    runBroadcasts st (events.filter fun e => !e.isSystemNotice) =
      runBroadcasts st events ∧
    MessageService.get_recent_messages (runBroadcasts st events).messages
        limit =
      MessageService.get_recent_messages
        (runBroadcasts st
          (events.filter fun e => !e.isSystemNotice)).messages limit := by
  have key : ∀ (evs : List BroadcastEvent) (s : ManagerState),
      runBroadcasts s (evs.filter fun e => !e.isSystemNotice) =
        runBroadcasts s evs := by
    intro evs
    induction evs with
    | nil => intro s; rfl
    | cons e rest ih =>
      intro s
      by_cases he : e.isSystemNotice = true
      · rw [List.filter_cons]
        rw [show (!e.isSystemNotice) = false from by rw [he]; rfl]
        simp only [Bool.false_eq_true, if_false]
        calc runBroadcasts s (rest.filter fun e => !e.isSystemNotice)
            = runBroadcasts s rest := ih s
          _ = runBroadcasts
                (ConnectionManager.broadcast s e.payload e.excludeUser
                  e.saveToDb e.sendOk e.messageId e.now).1 rest := by
                rw [broadcast_state_id_of_notice s e he]
          _ = runBroadcasts s (e :: rest) := rfl
      · rw [Bool.not_eq_true] at he
        have hb : (!e.isSystemNotice) = true := by rw [he]; rfl
        rw [List.filter_cons, hb]
        simp only [if_true]
        exact ih _
  exact ⟨key events st, by rw [key events st]⟩

end MoreClaims

section SanitizeLemmas

open SecurityUtils

/-- A character outside the escape set is kept verbatim. -/
theorem htmlEscapeChar_eq_self (c : Char) (h : isHtmlSpecial c = false) :
    htmlEscapeChar c = [c] := by
  simp only [isHtmlSpecial, Bool.or_eq_false_iff, decide_eq_false_iff_not] at h
  obtain ⟨⟨⟨⟨h1, h2⟩, h3⟩, h4⟩, h5⟩ := h
  simp [htmlEscapeChar, h1, h2, h3, h4, h5]

/-- Escaping is the identity on strings without escapable characters. -/
theorem html_escape_eq_self (l : List Char)
    (h : ∀ c ∈ l, isHtmlSpecial c = false) : html_escape l = l := by
  induction l with
  | nil => rfl
  | cons c rest ih =>
    have hc := htmlEscapeChar_eq_self c (h c (List.mem_cons_self c rest))
    have hrest := ih (fun x hx => h x (List.mem_cons_of_mem c hx))
    simp only [html_escape, List.map_cons, List.flatten_cons] at hrest ⊢
    rw [hc, hrest]
    rfl

/-- The head surviving a `dropWhile` fails the predicate. -/
theorem dropWhile_head_false (p : Char → Bool) (l : List Char) (c : Char)
    (h : (l.dropWhile p).head? = some c) : p c = false := by
  have hd := List.head?_dropWhile_not p l
  rw [h] at hd
  exact hd

/-- `dropWhile` is the identity when the head (if any) fails the
predicate. -/
theorem dropWhile_eq_self_of_head (p : Char → Bool) (l : List Char)
    (h : ∀ c, l.head? = some c → p c = false) : l.dropWhile p = l := by
  cases l with
  | nil => rfl
  | cons a t =>
    have ha := h a rfl
    simp [List.dropWhile_cons, ha]

/-- Stripping only removes characters. -/
theorem pyStrip_sublist (l : List Char) : (pyStrip l).Sublist l := by
  unfold pyStrip
  have h1 : (l.dropWhile pyIsStripChar).Sublist l := List.dropWhile_sublist _
  have h2 : ((l.dropWhile pyIsStripChar).reverse.dropWhile
      pyIsStripChar).Sublist (l.dropWhile pyIsStripChar).reverse :=
    List.dropWhile_sublist _
  have h3 := h2.reverse
  rw [List.reverse_reverse] at h3
  exact h3.trans h1

/-- The first character of a stripped string is not whitespace. -/
theorem pyStrip_head_fail (l : List Char) (c : Char)
    (h : (pyStrip l).head? = some c) : pyIsStripChar c = false := by
  unfold pyStrip at h
  rw [List.head?_reverse] at h
  obtain ⟨t, ht⟩ :=
    List.dropWhile_suffix (l := (l.dropWhile pyIsStripChar).reverse)
      pyIsStripChar
  have hm : (l.dropWhile pyIsStripChar).reverse.getLast? = some c := by
    rw [← ht, List.getLast?_append, h]
    rfl
  rw [List.getLast?_reverse] at hm
  exact dropWhile_head_false _ _ _ hm

/-- The last character of a stripped string is not whitespace. -/
theorem pyStrip_last_fail (l : List Char) (c : Char)
    (h : (pyStrip l).getLast? = some c) : pyIsStripChar c = false := by
  unfold pyStrip at h
  rw [List.getLast?_reverse] at h
  exact dropWhile_head_false _ _ _ h

/-- A string whose two ends are not whitespace is a strip fixpoint. -/
theorem pyStrip_fixed (x : List Char)
    (hh : ∀ c, x.head? = some c → pyIsStripChar c = false)
    (hl : ∀ c, x.getLast? = some c → pyIsStripChar c = false) :
    pyStrip x = x := by
  unfold pyStrip
  rw [dropWhile_eq_self_of_head _ _ hh]
  rw [dropWhile_eq_self_of_head _ _
    (fun c hc => hl c (by rwa [List.head?_reverse] at hc))]
  exact List.reverse_reverse x

/-- Stripping is idempotent. -/
theorem pyStrip_idem (l : List Char) : pyStrip (pyStrip l) = pyStrip l :=
  pyStrip_fixed (pyStrip l) (pyStrip_head_fail l) (pyStrip_last_fail l)

end SanitizeLemmas

section LastClaims

open SecurityUtils

/-- C4 — (amended) Sanitization is idempotent on inputs free of the
escapable characters (ampersand, angle brackets, quotes): there escaping is
the identity, truncation is absorbed, and stripping is idempotent.  On
markup-bearing inputs the ampersands introduced by the first escape are
escaped again, so idempotence fails (see the counterexample). -/
theorem sanitize_input_idempotent_without_markup (l : List Char)
    (h : ∀ c ∈ l, isHtmlSpecial c = false) :
    sanitize_input (sanitize_input l 1000) 1000 = sanitize_input l 1000 := by
  by_cases hl : l = []
  · subst hl; rfl
  · have hesc1 : html_escape (l.take 1000) = l.take 1000 :=
      html_escape_eq_self _ (fun c hc => h c ((List.take_sublist _ _).subset hc))
    have hs1 : sanitize_input l 1000 = pyStrip (l.take 1000) := by
      unfold sanitize_input
      rw [if_neg hl, hesc1]
    rw [hs1]
    by_cases hs1e : pyStrip (l.take 1000) = []
    · rw [hs1e]; rfl
    · have hsub : (pyStrip (l.take 1000)).Sublist l :=
        (pyStrip_sublist _).trans (List.take_sublist _ _)
      have hlen : (pyStrip (l.take 1000)).length ≤ 1000 := by
        have h1 := (pyStrip_sublist (l.take 1000)).length_le
        have h2 : (l.take 1000).length ≤ 1000 := by
          rw [List.length_take]; exact min_le_left _ _
        omega
      have htake := List.take_of_length_le hlen
      have hesc2 : html_escape (pyStrip (l.take 1000)) =
          pyStrip (l.take 1000) :=
        html_escape_eq_self _ (fun c hc => h c (hsub.subset hc))
      unfold sanitize_input
      rw [if_neg hs1e, htake, hesc2, pyStrip_idem]

/-- C4 witness — a markup-free input with trailing whitespace on which the
hypothesis holds and both applications agree. -/
theorem sanitize_input_idempotent_without_markup_witness :
    (∀ c ∈ ['h', 'i', ' '], isHtmlSpecial c = false) ∧
    sanitize_input (sanitize_input ['h', 'i', ' '] 1000) 1000 =
      sanitize_input ['h', 'i', ' '] 1000 :=
  ⟨by decide,
   sanitize_input_idempotent_without_markup ['h', 'i', ' '] (by decide)⟩

end LastClaims

/-- A successful text stage only rewrites the `text` field. -/
theorem processText_lookup_ne (fields f1 : List (String × Json)) (k : String)
    (hk : k ≠ "text") (h : processText fields = .ok f1) :
    lookupField f1 k = lookupField fields k := by
  unfold processText at h
  cases ht : lookupField fields "text" with
  | none =>
      simp only [ht] at h
      injection h with h1
      rw [← h1]
  | some v =>
      simp only [ht] at h
      cases hlen : pyLen v with
      | none =>
          simp only [hlen] at h
          exact Except.noConfusion h
      | some n =>
          simp only [hlen] at h
          by_cases hcond : 0 < n ∧ n ≤ 1000
          · rw [if_pos hcond] at h
            cases hsan : pySanitizeValue v 1000 with
            | none =>
                simp only [hsan] at h
                exact Except.noConfusion h
            | some s =>
                simp only [hsan] at h
                injection h with h1
                rw [← h1]
                exact lookupField_setField_ne fields "text" k _ hk
          · rw [if_neg hcond] at h
            exact absurd h (by simp)

/-- A successful profile-field stage only rewrites its own field. -/
theorem sanitizeProfileField_lookup_ne (fields f1 : List (String × Json))
    (name k : String) (hk : k ≠ name)
    (h : sanitizeProfileField fields name = .ok f1) :
    lookupField f1 k = lookupField fields k := by
  unfold sanitizeProfileField at h
  cases hn : lookupField fields name with
  | none =>
      simp only [hn] at h
      injection h with h1
      rw [← h1]
  | some v =>
      simp only [hn] at h
      cases hsan : pySanitizeValue v 200 with
      | none =>
          simp only [hsan] at h
          exact Except.noConfusion h
      | some s =>
          simp only [hsan] at h
          injection h with h1
          rw [← h1]
          exact lookupField_setField_ne fields name k _ hk

section FinalClaims

/-- C1 — (amended) Every payload the per-message step broadcasts carries the
server-assigned `timestamp` and `message_id`, the broadcast excludes the
sending connection's user, and the payload's `user_id` field is exactly what
the client supplied (present or absent) — the server performs no
authoritative override. -/
theorem processMessage_stamps_server_fields (userId : String)
    (fields : List (String × Json)) (ts mid : String) (payload : Json)
    (ex : String)
    (h : processMessage userId (some (.obj fields)) ts mid =
      .broadcastCall payload ex) :
    payload.getField "timestamp" = some (.str ts) ∧
    payload.getField "message_id" = some (.str mid) ∧
    payload.getField "user_id" = lookupField fields "user_id" ∧
    ex = userId := by
  unfold processMessage at h
  cases h1 : processText fields with
  | error e => simp only [h1] at h; cases e <;> simp [StepErr.toMsgStep] at h
  | ok f1 =>
    simp only [h1] at h
    cases h2 : sanitizeProfileField f1 "user_name" with
    | error e => simp only [h2] at h; cases e <;> simp [StepErr.toMsgStep] at h
    | ok f2 =>
      simp only [h2] at h
      cases h3 : sanitizeProfileField f2 "department" with
      | error e =>
          simp only [h3] at h; cases e <;> simp [StepErr.toMsgStep] at h
      | ok f3 =>
        simp only [h3] at h
        cases h4 : sanitizeProfileField f3 "bio" with
        | error e =>
            simp only [h4] at h; cases e <;> simp [StepErr.toMsgStep] at h
        | ok f4 =>
          simp only [h4] at h
          injection h with hpayload hex
          subst hpayload
          refine ⟨?_, ?_, ?_, hex.symm⟩
          · show lookupField
              (setField (setField f4 "timestamp" (.str ts)) "message_id"
                (.str mid)) "timestamp" = some (.str ts)
            rw [lookupField_setField_ne _ "message_id" "timestamp" _
              (by decide)]
            exact lookupField_setField_self f4 "timestamp" (.str ts)
          · exact lookupField_setField_self _ "message_id" (.str mid)
          · show lookupField
              (setField (setField f4 "timestamp" (.str ts)) "message_id"
                (.str mid)) "user_id" = lookupField fields "user_id"
            rw [lookupField_setField_ne _ "message_id" "user_id" _ (by decide)]
            rw [lookupField_setField_ne _ "timestamp" "user_id" _ (by decide)]
            rw [sanitizeProfileField_lookup_ne f3 f4 "bio" "user_id"
              (by decide) h4]
            rw [sanitizeProfileField_lookup_ne f2 f3 "department" "user_id"
              (by decide) h3]
            rw [sanitizeProfileField_lookup_ne f1 f2 "user_name" "user_id"
              (by decide) h2]
            exact processText_lookup_ne fields f1 "user_id" (by decide) h1

/-- C1 witness — a valid payload from `"doc1"` with spoofed
`user_id = "mallory"`: the hypothesis holds by evaluation, the conclusion
shows the server stamps `timestamp`/`message_id` and passes the client
`user_id` through. -/
theorem processMessage_stamps_server_fields_witness :
    (processMessage "doc1"
        (some (.obj [("user_id", Json.str "mallory"), ("text", Json.str "hi")]))
        "T" "M" =
      .broadcastCall (.obj [("user_id", Json.str "mallory"),
        ("text", Json.str "hi"), ("timestamp", Json.str "T"),
        ("message_id", Json.str "M")]) "doc1") ∧
    ((Json.obj [("user_id", Json.str "mallory"), ("text", Json.str "hi"),
        ("timestamp", Json.str "T"),
        ("message_id", Json.str "M")]).getField "timestamp" =
      some (Json.str "T") ∧
    (Json.obj [("user_id", Json.str "mallory"), ("text", Json.str "hi"),
        ("timestamp", Json.str "T"),
        ("message_id", Json.str "M")]).getField "message_id" =
      some (Json.str "M") ∧
    (Json.obj [("user_id", Json.str "mallory"), ("text", Json.str "hi"),
        ("timestamp", Json.str "T"),
        ("message_id", Json.str "M")]).getField "user_id" =
      lookupField [("user_id", Json.str "mallory"), ("text", Json.str "hi")]
        "user_id" ∧
    "doc1" = "doc1") :=
  ⟨rfl,
   processMessage_stamps_server_fields "doc1"
     [("user_id", Json.str "mallory"), ("text", Json.str "hi")] "T" "M"
     (.obj [("user_id", Json.str "mallory"), ("text", Json.str "hi"),
       ("timestamp", Json.str "T"), ("message_id", Json.str "M")]) "doc1"
     rfl⟩

end FinalClaims

end MedChat
